import Mathlib

/-!
# EmailFlow scheduling-and-dispatch engine: a shallow embedding

A shallow embedding, in Lean 4, of the scheduling-and-dispatch core of the
EmailFlow repository:

* `src/server/services/scheduler.ts` (`EmailScheduler.processPendingEmails`,
  `EmailScheduler.sendScheduledEmail`, `EmailScheduler.scheduleEmail`);
* `src/server/storage.ts` (`MemStorage` and the storage operations the
  scheduler calls);
* `src/shared/schema.ts` (the entity shapes).

Conventions of the embedding:

* Timestamps are modelled in a DST-free (UTC-like) calendar.  A JavaScript
  `Date` value is represented by its civil decomposition `CivilTime`
  (year, month 1–12, day, milliseconds of day); `Date.prototype.setMonth` /
  `setDate` / `setMinutes` are modelled by the ECMA-262 `MakeDay`/`MakeTime`
  normalisation they perform (day and time overflow roll forward, they are
  never clamped).  The linear time value of a date (`Date.prototype.getTime`)
  is recovered by `absMs`, built on the standard civil-from-days day count.
* JavaScript `Map`s are modelled as insertion-ordered lists; `Map.get` is
  `List.find?` on the key and `Map.set` on an existing key is an in-place
  update of the first (unique) matching entry (`updateFirst`).
* Fallible or absent values (`undefined`/`null`) are modelled by `Option`;
  the JavaScript truthiness idiom `a || b` on strings is modelled explicitly
  (`jsOrStr`, `jsOrS`).
* The outbound transport (`sendEmail` of `src/server/services/email.ts`) is
  an external collaborator; a call that returns `b : Bool` is modelled as
  `Except.ok b` and a call that throws is `Except.error e` with `e` the
  thrown error's message (`none` for a non-`Error` throw), matching the
  `try`/`catch` in `EmailScheduler.sendScheduledEmail`.
-/

namespace EmailFlow

/-! ## Calendar arithmetic (the JavaScript `Date` model) -/

/-- Gregorian leap-year test, as performed by JavaScript `Date` arithmetic. -/
def isLeap (y : Int) : Bool :=
  (y % 4 == 0 && y % 100 != 0) || y % 400 == 0

/-- Number of days in month `m` (1–12) of year `y`. -/
def daysInMonth (y : Int) (m : Nat) : Nat :=
  if m = 2 then (if isLeap y then 29 else 28)
  else if m = 4 ∨ m = 6 ∨ m = 9 ∨ m = 11 then 30
  else 31

/-- Day number of the civil date `y-m-d` counted from 1970-01-01 (day 0),
the standard days-from-civil computation used by ECMA-262 `MakeDay`.
`m` ranges over 1–12. -/
def daysFromCivil (y : Int) (m : Nat) (d : Nat) : Int :=
  let yy : Int := if m ≤ 2 then y - 1 else y
  let era : Int := yy / 400
  let yoe : Int := yy - era * 400
  let mp : Nat := if 2 < m then m - 3 else m + 9
  let doy : Int := (153 * (mp : Int) + 2) / 5 + (d : Int) - 1
  let doe : Int := yoe * 365 + yoe / 4 - yoe / 100 + doy
  era * 146097 + doe - 719468

/-- The month after month `m` of year `y` (the `ym` normalisation of
ECMA-262 `MakeDay` for a month index incremented by one). -/
def nextMonth (y : Int) (m : Nat) : Int × Nat :=
  if 12 ≤ m then (y + 1, 1) else (y, m + 1)

/-- Day-of-month overflow normalisation of ECMA-262 `MakeDay`: while the
day exceeds the length of the month, it rolls forward into the following
month.  The first argument is fuel; `normDay` supplies `d`, which is
sufficient because every step removes at least 28 days. -/
def normDayAux : Nat → Int → Nat → Nat → Int × Nat × Nat
  | 0, y, m, d => (y, m, d)
  | fuel + 1, y, m, d =>
    if d ≤ daysInMonth y m then (y, m, d)
    else normDayAux fuel (nextMonth y m).1 (nextMonth y m).2 (d - daysInMonth y m)

/-- Normalise a possibly-overflowing day-of-month (ECMA-262 `MakeDay`). -/
def normDay (y : Int) (m : Nat) (d : Nat) : Int × Nat × Nat :=
  normDayAux d y m d

/-- A JavaScript `Date` value in the DST-free model: the civil decomposition
year / month (1–12) / day / milliseconds elapsed in the day. -/
structure CivilTime where
  year : Int
  month : Nat
  day : Nat
  msOfDay : Nat
deriving DecidableEq, Repr

/-- The representation invariant of `CivilTime`: months 1–12, a day that
exists in the month, a time of day below 24 hours. -/
def ValidTime (t : CivilTime) : Prop :=
  1 ≤ t.month ∧ t.month ≤ 12 ∧ 1 ≤ t.day ∧ t.day ≤ daysInMonth t.year t.month ∧
    t.msOfDay < 86400000

instance (t : CivilTime) : Decidable (ValidTime t) := by
  unfold ValidTime; infer_instance

/-- `Date.prototype.getTime` of the model: milliseconds since the epoch. -/
def absMs (t : CivilTime) : Int :=
  daysFromCivil t.year t.month t.day * 86400000 + (t.msOfDay : Int)

/-- `scheduledFor.setDate(scheduledFor.getDate() + k)`: advance by `k`
calendar days (day overflow normalised by `MakeDay`). -/
def addDaysJS (t : CivilTime) (k : Nat) : CivilTime :=
  let r := normDay t.year t.month (t.day + k)
  ⟨r.1, r.2.1, r.2.2, t.msOfDay⟩

/-- `scheduledFor.setMinutes(scheduledFor.getMinutes() + 1)`: advance by one
minute, carrying into the next day when the time of day overflows. -/
def addMinuteJS (t : CivilTime) : CivilTime :=
  let ms := t.msOfDay + 60000
  if ms < 86400000 then ⟨t.year, t.month, t.day, ms⟩
  else
    let r := normDay t.year t.month (t.day + 1)
    ⟨r.1, r.2.1, r.2.2, ms - 86400000⟩

/-- `scheduledFor.setMonth(scheduledFor.getMonth() + 1)`: advance the month
index by one; the day-of-month is re-interpreted in the new month by
`MakeDay`, so a day past the end of the new month rolls forward (it is not
clamped). -/
def addMonthJS (t : CivilTime) : CivilTime :=
  let p := nextMonth t.year t.month
  let r := normDay p.1 p.2 t.day
  ⟨r.1, r.2.1, r.2.2, t.msOfDay⟩

/-! ### Lemmas about the calendar -/

theorem daysInMonth_ge (y : Int) (m : Nat) : 28 ≤ daysInMonth y m := by
  unfold daysInMonth
  split
  · split <;> omega
  · split <;> omega

theorem daysInMonth_le (y : Int) (m : Nat) : daysInMonth y m ≤ 31 := by
  unfold daysInMonth
  split
  · split <;> omega
  · split <;> omega

theorem nextMonth_bounds (y : Int) (m : Nat) (h1 : 1 ≤ m) (h2 : m ≤ 12) :
    1 ≤ (nextMonth y m).2 ∧ (nextMonth y m).2 ≤ 12 := by
  unfold nextMonth
  split
  · exact ⟨by omega, by omega⟩
  · exact ⟨by omega, by omega⟩

/-- The day argument of `daysFromCivil` is a pure offset. -/
theorem daysFromCivil_day (y : Int) (m d : Nat) :
    daysFromCivil y m d = daysFromCivil y m 1 + (d : Int) - 1 := by
  simp only [daysFromCivil]
  split <;> omega

/-- Advancing to the first of the next month advances the day count by
exactly the length of the current month. -/
theorem daysFromCivil_nextMonth (y : Int) (m : Nat) (h1 : 1 ≤ m) (h2 : m ≤ 12) :
    daysFromCivil (nextMonth y m).1 (nextMonth y m).2 1
      = daysFromCivil y m 1 + (daysInMonth y m : Int) := by
  interval_cases m <;>
    simp only [daysFromCivil, nextMonth, daysInMonth, isLeap,
      Bool.or_eq_true, Bool.and_eq_true, beq_iff_eq, bne_iff_ne] <;>
    norm_num <;>
    omega

/-- `normDayAux` with enough fuel lands on a valid month and day and
advances the civil day count by exactly the day offset. -/
theorem normDayAux_spec (fuel : Nat) :
    ∀ (y : Int) (m d : Nat), 1 ≤ m → m ≤ 12 → 1 ≤ d → d ≤ 28 * fuel + 28 →
      1 ≤ (normDayAux fuel y m d).2.1 ∧ (normDayAux fuel y m d).2.1 ≤ 12 ∧
      1 ≤ (normDayAux fuel y m d).2.2 ∧
      (normDayAux fuel y m d).2.2
        ≤ daysInMonth (normDayAux fuel y m d).1 (normDayAux fuel y m d).2.1 ∧
      daysFromCivil (normDayAux fuel y m d).1 (normDayAux fuel y m d).2.1
          (normDayAux fuel y m d).2.2
        = daysFromCivil y m 1 + (d : Int) - 1 := by
  induction fuel with
  | zero =>
    intro y m d h1 h2 hd1 hd2
    have h28 := daysInMonth_ge y m
    simp only [normDayAux]
    exact ⟨h1, h2, hd1, by omega, daysFromCivil_day y m d⟩
  | succ fuel ih =>
    intro y m d h1 h2 hd1 hd2
    simp only [normDayAux]
    by_cases hle : d ≤ daysInMonth y m
    · rw [if_pos hle]
      exact ⟨h1, h2, hd1, hle, daysFromCivil_day y m d⟩
    · rw [if_neg hle]
      have h28 := daysInMonth_ge y m
      have hb := nextMonth_bounds y m h1 h2
      have := ih (nextMonth y m).1 (nextMonth y m).2 (d - daysInMonth y m)
        hb.1 hb.2 (by omega) (by omega)
      refine ⟨this.1, this.2.1, this.2.2.1, this.2.2.2.1, ?_⟩
      rw [this.2.2.2.2, daysFromCivil_nextMonth y m h1 h2]
      omega

/-- If the day already fits in the month, normalisation is the identity. -/
theorem normDayAux_of_le (fuel : Nat) (y : Int) (m d : Nat)
    (h : d ≤ daysInMonth y m) : normDayAux fuel y m d = (y, m, d) := by
  cases fuel with
  | zero => rfl
  | succ fuel => simp only [normDayAux, if_pos h]

/-- `addDaysJS` advances `getTime` by exactly `k` days. -/
theorem absMs_addDaysJS (t : CivilTime) (k : Nat) (h : ValidTime t) :
    absMs (addDaysJS t k) = absMs t + (k : Int) * 86400000 := by
  obtain ⟨h1, h2, h3, h4, h5⟩ := h
  have hs := normDayAux_spec (t.day + k) t.year t.month (t.day + k)
    h1 h2 (by omega) (by have := daysInMonth_le t.year t.month; omega)
  simp only [addDaysJS, normDay, absMs] at *
  rw [hs.2.2.2.2, daysFromCivil_day t.year t.month t.day]
  push_cast
  ring

/-- `addMinuteJS` advances `getTime` by exactly one minute. -/
theorem absMs_addMinuteJS (t : CivilTime) (h : ValidTime t) :
    absMs (addMinuteJS t) = absMs t + 60000 := by
  obtain ⟨h1, h2, h3, h4, h5⟩ := h
  simp only [addMinuteJS]
  by_cases hc : t.msOfDay + 60000 < 86400000
  · rw [if_pos hc]
    simp only [absMs]
    push_cast
    ring
  · rw [if_neg hc]
    have hs := normDayAux_spec (t.day + 1) t.year t.month (t.day + 1)
      h1 h2 (by omega) (by have := daysInMonth_le t.year t.month; omega)
    simp only [normDay, absMs] at *
    rw [hs.2.2.2.2, daysFromCivil_day t.year t.month t.day]
    omega

/-- `addMonthJS` advances `getTime` by exactly the length of the current
month (in particular, always strictly forward). -/
theorem absMs_addMonthJS (t : CivilTime) (h : ValidTime t) :
    absMs (addMonthJS t)
      = absMs t + (daysInMonth t.year t.month : Int) * 86400000 := by
  obtain ⟨h1, h2, h3, h4, h5⟩ := h
  have hb := nextMonth_bounds t.year t.month h1 h2
  have hs := normDayAux_spec t.day (nextMonth t.year t.month).1
    (nextMonth t.year t.month).2 t.day hb.1 hb.2 (by omega)
    (by have := daysInMonth_le t.year t.month; omega)
  simp only [addMonthJS, normDay, absMs] at *
  rw [hs.2.2.2.2, daysFromCivil_nextMonth t.year t.month h1 h2,
    daysFromCivil_day t.year t.month t.day]
  ring

/-! ## Data model (`src/shared/schema.ts`) -/

/-- Lifecycle status of a `ScheduledEmail`
(`pending, sent, failed, cancelled` in `src/shared/schema.ts`). -/
inductive EmailStatus
  | pending
  | sent
  | failed
  | cancelled
deriving DecidableEq, Repr

/-- A row of the `clients` table.  `jsonb` custom fields are an
insertion-ordered string-to-string record; nullable columns are `Option`;
timestamps are epoch milliseconds. -/
structure Client where
  id : Nat
  name : String
  email : String
  company : Option String
  phone : Option String
  language : String
  customFields : List (String × String)
  lastInteraction : Option Int
  createdAt : Int
deriving DecidableEq, Repr

/-- A row of the `email_templates` table.  `subject` and `content` are
language-code-to-string records. -/
structure EmailTemplate where
  id : Nat
  name : String
  subject : List (String × String)
  content : List (String × String)
  /-- The `variables` column (that word is a reserved token in Lean). -/
  variableNames : List String
  primaryLanguage : String
  supportedLanguages : List String
  usageCount : Nat
  createdAt : Int
deriving DecidableEq, Repr

/-- A row of the `scheduled_emails` table. -/
structure ScheduledEmail where
  id : Nat
  clientId : Nat
  templateId : Nat
  scheduledFor : Int
  status : EmailStatus
  language : String
  personalizedSubject : Option String
  personalizedContent : Option String
  sentAt : Option Int
  errorMessage : Option String
  createdAt : Int
deriving DecidableEq, Repr

/-- A row of the `email_logs` table.  The log status set
(`sent/delivered/opened/clicked/bounced/failed`) is wider than
`EmailStatus`, so it stays a string as in the schema. -/
structure EmailLog where
  id : Nat
  clientId : Nat
  templateId : Option Nat
  scheduledEmailId : Option Nat
  subject : String
  status : String
  language : String
  sentAt : Int
  deliveredAt : Option Int
  openedAt : Option Int
  errorMessage : Option String
deriving DecidableEq, Repr

/-- `InsertScheduledEmail` (`insertScheduledEmailSchema` omits only `id`,
`createdAt`, `sentAt`, `personalizedSubject` and `personalizedContent`, so a
caller may still supply `status`, `language` and `errorMessage`; fields with
schema defaults are optional). -/
structure InsertScheduledEmail where
  clientId : Nat
  templateId : Nat
  scheduledFor : Int
  status : Option EmailStatus
  language : Option String
  errorMessage : Option (Option String)
deriving DecidableEq, Repr

/-- `InsertEmailLog` (`insertEmailLogSchema` omits `id`, `sentAt`,
`deliveredAt`, `openedAt`). -/
structure InsertEmailLog where
  clientId : Nat
  templateId : Option Nat
  scheduledEmailId : Option Nat
  subject : String
  status : String
  language : String
  errorMessage : Option String
deriving DecidableEq, Repr

/-- The mutable state of `MemStorage`: each `Map` is an insertion-ordered
list of rows, plus the id counters the scheduler-relevant operations use. -/
structure Store where
  clients : List Client
  emailTemplates : List EmailTemplate
  scheduledEmails : List ScheduledEmail
  emailLogs : List EmailLog
  currentScheduledEmailId : Nat
  currentLogId : Nat
deriving DecidableEq, Repr

/-! ## JavaScript value idioms -/

/-- JavaScript `a || b` on strings: the empty string is falsy. -/
def jsOrStr (a b : String) : String :=
  if a = "" then b else a

/-- JavaScript `a || b` where `a` is a possibly-absent string property
(record indexing): `undefined` and `""` both fall through. -/
def jsOrS : Option String → String → String
  | some s, b => if s = "" then b else s
  | none, b => b

/-- JavaScript `x || null` on a possibly-absent number (`0` is falsy). -/
def jsOrNullNat : Option Nat → Option Nat
  | some n => if n = 0 then none else some n
  | none => none

/-- JavaScript `x || null` on a possibly-absent string (`""` is falsy). -/
def jsOrNullStr : Option String → Option String
  | some v => if v = "" then none else some v
  | none => none

/-! ## Storage operations (`src/server/storage.ts`, `MemStorage`) -/

/-- `Map.set` on an existing key: replace the first (unique) matching entry
in place, leaving the rest of the list untouched.  On a missing key this is
the identity, matching the `if (!existing) return undefined` guards. -/
def updateFirst (q : α → Bool) (f : α → α) : List α → List α
  | [] => []
  | a :: l => if q a then f a :: l else a :: updateFirst q f l

/-- `MemStorage.getClient`. -/
def getClient (s : Store) (id : Nat) : Option Client :=
  s.clients.find? fun c => decide (c.id = id)

/-- `MemStorage.getEmailTemplate`. -/
def getEmailTemplate (s : Store) (id : Nat) : Option EmailTemplate :=
  s.emailTemplates.find? fun t => decide (t.id = id)

/-- `MemStorage.getScheduledEmail`. -/
def getScheduledEmail (s : Store) (id : Nat) : Option ScheduledEmail :=
  s.scheduledEmails.find? fun e => decide (e.id = id)

/-- A `Partial<ScheduledEmail>` as passed to
`MemStorage.updateScheduledEmail` by the scheduler: present fields override
the stored record, absent fields keep it. -/
structure ScheduledEmailPatch where
  status : Option EmailStatus
  sentAt : Option Int
  personalizedSubject : Option String
  personalizedContent : Option String
  errorMessage : Option String
deriving DecidableEq, Repr

/-- Object spread `{ ...existing, ...emailUpdate }` for the patch shapes the
scheduler sends. -/
def applyPatch (p : ScheduledEmailPatch) (e : ScheduledEmail) : ScheduledEmail :=
  { e with
    status := p.status.getD e.status,
    sentAt := (p.sentAt.map some).getD e.sentAt,
    personalizedSubject := (p.personalizedSubject.map some).getD e.personalizedSubject,
    personalizedContent := (p.personalizedContent.map some).getD e.personalizedContent,
    errorMessage := (p.errorMessage.map some).getD e.errorMessage }

/-- `MemStorage.updateScheduledEmail` (a no-op when the id is absent). -/
def updateScheduledEmail (s : Store) (id : Nat) (p : ScheduledEmailPatch) : Store :=
  { s with scheduledEmails :=
      updateFirst (fun e => decide (e.id = id)) (applyPatch p) s.scheduledEmails }

/-- `MemStorage.incrementTemplateUsage`:
`template.usageCount = (template.usageCount || 0) + 1` when the template
exists, otherwise nothing. -/
def incrementTemplateUsage (s : Store) (id : Nat) : Store :=
  { s with
    emailTemplates :=
      updateFirst (fun t => decide (t.id = id))
        (fun t => { t with usageCount := t.usageCount + 1 }) s.emailTemplates }

/-- `MemStorage.createEmailLog`: allocate `currentLogId`, stamp `sentAt`
with the current time, apply the `|| null` coercions of the source, append. -/
def createEmailLog (s : Store) (now : Int) (i : InsertEmailLog) :
    Store × EmailLog :=
  let log : EmailLog :=
    { id := s.currentLogId,
      clientId := i.clientId,
      templateId := jsOrNullNat i.templateId,
      scheduledEmailId := jsOrNullNat i.scheduledEmailId,
      subject := i.subject,
      status := i.status,
      language := i.language,
      sentAt := now,
      deliveredAt := none,
      openedAt := none,
      errorMessage := jsOrNullStr i.errorMessage }
  ({ s with emailLogs := s.emailLogs ++ [log], currentLogId := s.currentLogId + 1 },
    log)

/-- `MemStorage.createScheduledEmail`: spread the insert input, then
overwrite `id`, `createdAt`, `status: "pending"`, `language || "en"` and the
four nulled fields (the overwrites come after the spread in the object
literal, so any caller-supplied `status`/`errorMessage` is discarded). -/
def createScheduledEmail (s : Store) (now : Int) (i : InsertScheduledEmail) :
    Store × ScheduledEmail :=
  let email : ScheduledEmail :=
    { id := s.currentScheduledEmailId,
      clientId := i.clientId,
      templateId := i.templateId,
      scheduledFor := i.scheduledFor,
      status := .pending,
      language := jsOrStr (i.language.getD "") "en",
      personalizedSubject := none,
      personalizedContent := none,
      sentAt := none,
      errorMessage := none,
      createdAt := now }
  ({ s with
      scheduledEmails := s.scheduledEmails ++ [email],
      currentScheduledEmailId := s.currentScheduledEmailId + 1 },
    email)

/-- Stable insertion of a record into a list sorted by due timestamp:
the record goes before the first entry whose key is not smaller, which is
where a stable comparator sort (`Array.prototype.sort` with
`(a, b) => a.scheduledFor - b.scheduledFor`, stable per ES2019) places it. -/
def insertByDue (a : ScheduledEmail) : List ScheduledEmail → List ScheduledEmail
  | [] => [a]
  | b :: l =>
    if b.scheduledFor < a.scheduledFor then b :: insertByDue a l
    else a :: b :: l

/-- The stable sort by ascending `scheduledFor` performed by
`MemStorage.getPendingScheduledEmails`. -/
def sortByDue : List ScheduledEmail → List ScheduledEmail
  | [] => []
  | a :: l => insertByDue a (sortByDue l)

/-- `MemStorage.getPendingScheduledEmails`: all records with status
`pending` and due timestamp at or before now, sorted by ascending due
timestamp (stably, so ties keep insertion order). -/
def getPendingScheduledEmails (s : Store) (now : Int) : List ScheduledEmail :=
  sortByDue (s.scheduledEmails.filter fun e =>
    decide (e.status = .pending) && decide (e.scheduledFor ≤ now))

/-! ## Template renderer and transport (`src/server/services/email.ts`) -/

/-- Replace every occurrence of a (non-empty) pattern in a character list.
The first argument is fuel; every step consumes at least one character, so
the list length (supplied by `replaceAll`) is always enough. -/
def replaceAllAux (pat rep : List Char) : Nat → List Char → List Char
  | 0, l => l
  | _ + 1, [] => []
  | fuel + 1, c :: rest =>
    if pat ≠ [] ∧ pat.isPrefixOf (c :: rest) then
      rep ++ replaceAllAux pat rep fuel ((c :: rest).drop pat.length)
    else
      c :: replaceAllAux pat rep fuel rest

/-- Replace every occurrence of a (non-empty) pattern in a character list. -/
def replaceAll (pat rep l : List Char) : List Char :=
  replaceAllAux pat rep l.length l

/-- Modelled from the spec: `personalizeContent` lives in
`src/server/services/email.ts`, which is not part of the source snapshot.
Spec §4.2: replace every occurrence of a `\x7b\x7bname\x7d\x7d` placeholder
in the text with the corresponding variable value; placeholders with no
matching variable are left verbatim. -/
def personalizeContent (content : String) (vars : List (String × String)) :
    String :=
  ⟨vars.foldl
    (fun acc kv =>
      replaceAll ("\x7b\x7b".data ++ kv.1.data ++ "\x7d\x7d".data) kv.2.data acc)
    content.data⟩

/-- `personalizedContent.replace(/<[^>]*>/g, '')`: drop every
`<`…`>` span; a `<` with no closing `>` anywhere after it is left as is
(the regular expression does not match there). -/
def stripTagsAux : Nat → List Char → List Char
  | 0, l => l
  | _ + 1, [] => []
  | fuel + 1, c :: rest =>
    if c = '<' then
      if rest.any (fun x => decide (x = '>')) then
        stripTagsAux fuel ((rest.dropWhile (fun x => decide (x ≠ '>'))).drop 1)
      else c :: rest
    else c :: stripTagsAux fuel rest

/-- Strip markup tags for the plain-text transport body (the fuel of the
scan is the string length; every step consumes at least one character). -/
def stripTags (s : String) : String :=
  ⟨stripTagsAux s.data.length s.data⟩

/-- The argument object of the transport collaborator
`sendEmail({ to, from, subject, html, text })` (`from` is a Lean keyword,
hence `fromAddr`). -/
structure SendPayload where
  /-- The `to` field (`to` is a Lean keyword). -/
  toAddr : String
  /-- The `from` field (`from` is a Lean keyword). -/
  fromAddr : String
  subject : String
  html : String
  text : String
deriving DecidableEq, Repr

/-- The transport collaborator: `Except.ok b` models `sendEmail` returning
`b`, `Except.error e` models `sendEmail` throwing (with `e = some msg` for
an `Error` carrying `msg`, `none` for a non-`Error` throw). -/
abbrev Transport := SendPayload → Except (Option String) Bool

/-! ## The scheduler (`src/server/services/scheduler.ts`) -/

/-- Line 52: `scheduledEmail.language || client.language || 'en'`. -/
def effectiveLanguage (se : ScheduledEmail) (c : Client) : String :=
  jsOrStr se.language (jsOrStr c.language "en")

/-- Lines 53–54: `m[language] || m[template.primaryLanguage] || ''` for the
subject and content records. -/
def resolveField (m : List (String × String)) (lang primary : String) : String :=
  jsOrS (m.lookup lang) (jsOrS (m.lookup primary) "")

/-- Lines 65–71: the personalization variable bag — the object literal
`{ client_name, company, last_interaction, ...client.customFields }`.
Spread keeps the built-ins' insertion positions but lets a custom field of
the same name override the value; new custom keys follow.  The
`toLocaleDateString` rendering of the last-interaction date is locale and
timezone dependent, so it is an explicit parameter `fmtDate`. -/
def builtinVariables (fmtDate : Int → String) (c : Client) :
    List (String × String) :=
  [("client_name", c.name),
   ("company", c.company.getD ""),
   ("last_interaction",
     match c.lastInteraction with
     | some ts => fmtDate ts
     | none => "N/A")]

/-- The object-spread record itself: the built-in keys keep their insertion
positions (with the value overridden when a custom field of the same name
exists), and the remaining custom keys follow in their own order. -/
def buildVariables (fmtDate : Int → String) (c : Client) :
    List (String × String) :=
  (builtinVariables fmtDate c).map
      (fun kv => ((kv.1 : String), (c.customFields.lookup kv.1).getD kv.2))
    ++ c.customFields.filter
        (fun kv => ((builtinVariables fmtDate c).lookup kv.1).isNone)

/-- The personalized subject of lines 73: `personalizeContent(subject, variables)`. -/
def renderedSubject (fmtDate : Int → String) (c : Client) (t : EmailTemplate)
    (se : ScheduledEmail) : String :=
  personalizeContent
    (resolveField t.subject (effectiveLanguage se c) t.primaryLanguage)
    (buildVariables fmtDate c)

/-- The personalized content of line 74. -/
def renderedContent (fmtDate : Int → String) (c : Client) (t : EmailTemplate)
    (se : ScheduledEmail) : String :=
  personalizeContent
    (resolveField t.content (effectiveLanguage se c) t.primaryLanguage)
    (buildVariables fmtDate c)

/-- Lines 77–83: the object passed to the transport. -/
def dispatchPayload (fmtDate : Int → String) (c : Client) (t : EmailTemplate)
    (se : ScheduledEmail) : SendPayload :=
  { toAddr := c.email,
    fromAddr := "noreply@emailflow.app",
    subject := renderedSubject fmtDate c t se,
    html := renderedContent fmtDate c t se,
    text := stripTags (renderedContent fmtDate c t se) }

/-- The `{ status: 'failed', errorMessage: msg }` update object. -/
def failPatch (msg : String) : ScheduledEmailPatch :=
  { status := some .failed,
    sentAt := none,
    personalizedSubject := none,
    personalizedContent := none,
    errorMessage := some msg }

/-- The success update object of lines 87–92. -/
def sentPatch (now : Int) (ps pc : String) : ScheduledEmailPatch :=
  { status := some .sent,
    sentAt := some now,
    personalizedSubject := some ps,
    personalizedContent := some pc,
    errorMessage := none }

/-- `EmailScheduler.sendScheduledEmail` (lines 39–121), as a pure state
transformer over the store.  `send` is the transport collaborator, `now`
the injected clock.  The `catch` of lines 114–120 is reached exactly when
the transport throws (`Except.error`), the only failing call in the model;
it records the error's message, or `'Unknown error'` for a non-`Error`
throw. -/
def sendScheduledEmail (send : Transport) (fmtDate : Int → String) (now : Int)
    (s : Store) (se : ScheduledEmail) : Store :=
  match getClient s se.clientId, getEmailTemplate s se.templateId with
  | some client, some template =>
    let language := effectiveLanguage se client
    let subject := resolveField template.subject language template.primaryLanguage
    let content := resolveField template.content language template.primaryLanguage
    if subject = "" ∨ content = "" then
      updateScheduledEmail s se.id
        (failPatch ("Template content not available for language: " ++ language))
    else
      match send (dispatchPayload fmtDate client template se) with
      | .ok true =>
        let s1 := updateScheduledEmail s se.id
          (sentPatch now (renderedSubject fmtDate client template se)
            (renderedContent fmtDate client template se))
        let s2 := (createEmailLog s1 now
          { clientId := client.id,
            templateId := some template.id,
            scheduledEmailId := some se.id,
            subject := renderedSubject fmtDate client template se,
            status := "sent",
            language := language,
            errorMessage := none }).1
        incrementTemplateUsage s2 template.id
      | .ok false =>
        updateScheduledEmail s se.id (failPatch "Failed to send email via SendGrid")
      | .error e =>
        updateScheduledEmail s se.id (failPatch (e.getD "Unknown error"))
  | _, _ =>
    updateScheduledEmail s se.id (failPatch "Client or template not found")

/-- `EmailScheduler.processPendingEmails` (lines 27–37): fetch the due
pending records once, then dispatch each sequentially against the evolving
store. -/
def processPendingEmails (send : Transport) (fmtDate : Int → String) (now : Int)
    (s : Store) : Store :=
  (getPendingScheduledEmails s now).foldl
    (fun st se => sendScheduledEmail send fmtDate now st se) s

/-- The four delay symbols of `EmailScheduler.scheduleEmail`. -/
inductive Delay
  | immediate
  | oneDay
  | oneWeek
  | oneMonth
deriving DecidableEq, Repr

/-- The `switch (delay)` block of `EmailScheduler.scheduleEmail`
(lines 129–145): map a delay symbol and the current time to the due time. -/
def resolveDueTime (delay : Delay) (now : CivilTime) : CivilTime :=
  match delay with
  | .immediate => addMinuteJS now
  | .oneDay => addDaysJS now 1
  | .oneWeek => addDaysJS now 7
  | .oneMonth => addMonthJS now

/-- `EmailScheduler.scheduleEmail` (lines 123–153): compute the due time
from `new Date()` (`now`), then create a pending record with
`language || 'en'`. -/
def scheduleEmail (s : Store) (now : CivilTime) (clientId templateId : Nat)
    (delay : Delay) (language : Option String) : Store × ScheduledEmail :=
  createScheduledEmail s (absMs now)
    { clientId := clientId,
      templateId := templateId,
      scheduledFor := absMs (resolveDueTime delay now),
      status := none,
      language := some (jsOrStr (language.getD "") "en"),
      errorMessage := none }

/-! ## Lemmas about the storage primitives -/

theorem find?_updateFirst_self {α : Type} (q : α → Bool) (f : α → α) (l : List α)
    (a : α) (hf : ∀ x, q x = true → q (f x) = true) (h : l.find? q = some a) :
    (updateFirst q f l).find? q = some (f a) := by
  induction l with
  | nil => simp [List.find?] at h
  | cons b l ih =>
    by_cases hb : q b = true
    · rw [List.find?_cons_of_pos _ hb] at h
      injection h with h
      subst h
      simp only [updateFirst, if_pos hb]
      exact List.find?_cons_of_pos _ (hf b hb)
    · rw [List.find?_cons_of_neg _ hb] at h
      simp only [updateFirst, if_neg hb]
      rw [List.find?_cons_of_neg _ hb]
      exact ih h

theorem find?_updateFirst_disjoint {α : Type} (q r : α → Bool) (f : α → α)
    (l : List α) (hqr : ∀ x, q x = true → r x = false)
    (hrf : ∀ x, r (f x) = r x) :
    (updateFirst q f l).find? r = l.find? r := by
  induction l with
  | nil => rfl
  | cons b l ih =>
    by_cases hb : q b = true
    · simp only [updateFirst, if_pos hb]
      rw [List.find?_cons_of_neg _ (by simp [hrf b, hqr b hb]),
        List.find?_cons_of_neg _ (by simp [hqr b hb])]
    · simp only [updateFirst, if_neg hb]
      by_cases hr : r b = true
      · rw [List.find?_cons_of_pos _ hr, List.find?_cons_of_pos _ hr]
      · rw [List.find?_cons_of_neg _ hr, List.find?_cons_of_neg _ hr]
        exact ih

theorem find?_updateFirst_map {α β : Type} (q r : α → Bool) (f : α → α)
    (g : α → β) (l : List α) (hr : ∀ x, r (f x) = r x)
    (hg : ∀ x, g (f x) = g x) :
    ((updateFirst q f l).find? r).map g = (l.find? r).map g := by
  induction l with
  | nil => rfl
  | cons b l ih =>
    by_cases hb : q b = true
    · simp only [updateFirst, if_pos hb]
      by_cases hrb : r b = true
      · rw [List.find?_cons_of_pos _ (by simp [hr b, hrb]),
          List.find?_cons_of_pos _ hrb]
        simp [hg b]
      · rw [List.find?_cons_of_neg _ (by simp [hr b, hrb]),
          List.find?_cons_of_neg _ hrb]
    · simp only [updateFirst, if_neg hb]
      by_cases hrb : r b = true
      · rw [List.find?_cons_of_pos _ hrb, List.find?_cons_of_pos _ hrb]
      · rw [List.find?_cons_of_neg _ hrb, List.find?_cons_of_neg _ hrb]
        exact ih

/-- With pairwise-distinct ids (the `Map` key invariant), `find?` on the id
of a member returns that member. -/
theorem find?_eq_of_mem_of_pairwise_ne {α : Type} (key : α → Nat) (l : List α)
    (a : α) (hnd : l.Pairwise (fun x y => key x ≠ key y)) (ha : a ∈ l) :
    l.find? (fun x => decide (key x = key a)) = some a := by
  induction l with
  | nil => cases ha
  | cons b l ih =>
    rcases List.mem_cons.mp ha with rfl | ha
    · exact List.find?_cons_of_pos _ (by simp)
    · have hb : key b ≠ key a := (List.pairwise_cons.mp hnd).1 a ha
      rw [List.find?_cons_of_neg _ (by simpa using hb)]
      exact ih (List.pairwise_cons.mp hnd).2 ha

theorem insertByDue_perm (a : ScheduledEmail) (l : List ScheduledEmail) :
    (insertByDue a l).Perm (a :: l) := by
  induction l with
  | nil => exact List.Perm.refl _
  | cons b l ih =>
    simp only [insertByDue]
    split
    · exact (ih.cons b).trans (List.Perm.swap a b l)
    · exact List.Perm.refl _

theorem sortByDue_perm (l : List ScheduledEmail) : (sortByDue l).Perm l := by
  induction l with
  | nil => exact List.Perm.refl _
  | cons a l ih => exact (insertByDue_perm a (sortByDue l)).trans (ih.cons a)

/-- Membership in the due-set query, unsorted characterisation. -/
theorem mem_getPendingScheduledEmails (s : Store) (now : Int)
    (e : ScheduledEmail) :
    e ∈ getPendingScheduledEmails s now ↔
      e ∈ s.scheduledEmails ∧ e.status = .pending ∧ e.scheduledFor ≤ now := by
  unfold getPendingScheduledEmails
  rw [(sortByDue_perm _).mem_iff, List.mem_filter]
  simp

/-- The strict order "earlier due, or same due time and created earlier"
(ids are allocated in creation order by `MemStorage`). -/
def dueOrder (a b : ScheduledEmail) : Prop :=
  a.scheduledFor < b.scheduledFor ∨
    (a.scheduledFor = b.scheduledFor ∧ a.id < b.id)

theorem insertByDue_pairwise (a : ScheduledEmail) (l : List ScheduledEmail)
    (hl : l.Pairwise dueOrder) (ha : ∀ x ∈ l, a.id < x.id) :
    (insertByDue a l).Pairwise dueOrder := by
  induction l with
  | nil => simp [insertByDue, List.pairwise_cons]
  | cons b l ih =>
    rcases List.pairwise_cons.mp hl with ⟨hb, hl'⟩
    simp only [insertByDue]
    split
    · rename_i hlt
      refine List.pairwise_cons.mpr ⟨?_, ih hl' (fun x hx => ha x (by simp [hx]))⟩
      intro y hy
      rcases List.mem_cons.mp ((insertByDue_perm a l).mem_iff.mp hy) with rfl | hy
      · exact Or.inl hlt
      · exact hb y hy
    · rename_i hnlt
      push_neg at hnlt
      refine List.pairwise_cons.mpr ⟨?_, hl⟩
      intro y hy
      rcases List.mem_cons.mp hy with rfl | hy
      · rcases lt_or_eq_of_le hnlt with h | h
        · exact Or.inl h
        · exact Or.inr ⟨h, ha y (by simp)⟩
      · rcases hb y hy with h | h
        · exact Or.inl (lt_of_le_of_lt hnlt h)
        · rcases lt_or_eq_of_le hnlt with h2 | h2
          · exact Or.inl (h2.trans_eq h.1)
          · exact Or.inr ⟨h2.trans h.1, ha y (by simp [hy])⟩

/-- The stable sort of a creation-ordered list is sorted by `dueOrder`:
ascending due timestamp, ties broken by creation order. -/
theorem sortByDue_pairwise (l : List ScheduledEmail)
    (h : l.Pairwise (fun x y => x.id < y.id)) :
    (sortByDue l).Pairwise dueOrder := by
  induction l with
  | nil => simp [sortByDue]
  | cons a l ih =>
    rcases List.pairwise_cons.mp h with ⟨ha, hl⟩
    exact insertByDue_pairwise a (sortByDue l) (ih hl)
      (fun x hx => ha x ((sortByDue_perm l).mem_iff.mp hx))

/-! ## Behaviour of `sendScheduledEmail` -/

/-- The dispatch path never touches the client table. -/
theorem sendScheduledEmail_clients (send : Transport) (fmtDate : Int → String)
    (now : Int) (s : Store) (se : ScheduledEmail) :
    (sendScheduledEmail send fmtDate now s se).clients = s.clients := by
  unfold sendScheduledEmail
  cases hgc : getClient s se.clientId with
  | none => rfl
  | some client =>
    cases hgt : getEmailTemplate s se.templateId with
    | none => rfl
    | some template =>
      dsimp only
      split
      · rfl
      · cases hs : send (dispatchPayload fmtDate client template se) with
        | error e => rfl
        | ok b => cases b <;> rfl

/-- Dispatching one record only ever rewrites the scheduled-email entry
with that record's id. -/
theorem sendScheduledEmail_find_ne (send : Transport) (fmtDate : Int → String)
    (now : Int) (s : Store) (se : ScheduledEmail) (k : Nat) (hk : ¬ k = se.id) :
    getScheduledEmail (sendScheduledEmail send fmtDate now s se) k
      = getScheduledEmail s k := by
  have key : ∀ (p : ScheduledEmailPatch),
      getScheduledEmail (updateScheduledEmail s se.id p) k = getScheduledEmail s k := by
    intro p
    unfold getScheduledEmail updateScheduledEmail
    exact find?_updateFirst_disjoint _ _ _ _
      (fun x hx => by
        simp only [decide_eq_true_eq] at hx
        simp only [decide_eq_false_iff_not]
        omega)
      (fun x => rfl)
  unfold sendScheduledEmail
  cases hgc : getClient s se.clientId with
  | none => exact key _
  | some client =>
    cases hgt : getEmailTemplate s se.templateId with
    | none => exact key _
    | some template =>
      dsimp only
      split
      · exact key _
      · cases hs : send (dispatchPayload fmtDate client template se) with
        | error e => exact key _
        | ok b =>
          cases b
          · exact key _
          · exact key _

/-- The fields of a template that rendering reads (id, subject, content,
primary language). -/
def templateView (t : EmailTemplate) :
    Nat × List (String × String) × List (String × String) × String :=
  (t.id, t.subject, t.content, t.primaryLanguage)

/-- Dispatching a record can bump a usage counter but never changes any
template's id, subject, content or primary language. -/
theorem sendScheduledEmail_templateView (send : Transport) (fmtDate : Int → String)
    (now : Int) (s : Store) (se : ScheduledEmail) (k : Nat) :
    ((sendScheduledEmail send fmtDate now s se).emailTemplates.find?
        (fun t => decide (t.id = k))).map templateView
      = (s.emailTemplates.find? (fun t => decide (t.id = k))).map templateView := by
  unfold sendScheduledEmail
  cases hgc : getClient s se.clientId with
  | none => rfl
  | some client =>
    cases hgt : getEmailTemplate s se.templateId with
    | none => rfl
    | some template =>
      dsimp only
      split
      · rfl
      · cases hs : send (dispatchPayload fmtDate client template se) with
        | error e => rfl
        | ok b =>
          cases b
          · rfl
          · exact find?_updateFirst_map _ _ _ _ _ (fun x => rfl) (fun x => rfl)

/-- The complete observable effect of a successful dispatch (the
`success === true` arm of lines 85–107). -/
theorem sendScheduledEmail_success_spec (send : Transport)
    (fmtDate : Int → String) (now : Int) (s : Store) (se : ScheduledEmail)
    (client : Client) (template : EmailTemplate)
    (hc : getClient s se.clientId = some client)
    (ht : getEmailTemplate s se.templateId = some template)
    (hse : getScheduledEmail s se.id = some se)
    (hsubj : resolveField template.subject (effectiveLanguage se client)
      template.primaryLanguage ≠ "")
    (hcont : resolveField template.content (effectiveLanguage se client)
      template.primaryLanguage ≠ "")
    (hsend : send (dispatchPayload fmtDate client template se) = .ok true) :
    getScheduledEmail (sendScheduledEmail send fmtDate now s se) se.id
      = some { se with
          status := .sent,
          sentAt := some now,
          personalizedSubject := some (renderedSubject fmtDate client template se),
          personalizedContent := some (renderedContent fmtDate client template se) } ∧
    (sendScheduledEmail send fmtDate now s se).emailLogs
      = s.emailLogs ++
        [{ id := s.currentLogId,
           clientId := client.id,
           templateId := jsOrNullNat (some template.id),
           scheduledEmailId := jsOrNullNat (some se.id),
           subject := renderedSubject fmtDate client template se,
           status := "sent",
           language := effectiveLanguage se client,
           sentAt := now,
           deliveredAt := none,
           openedAt := none,
           errorMessage := none }] ∧
    getEmailTemplate (sendScheduledEmail send fmtDate now s se) se.templateId
      = some { template with usageCount := template.usageCount + 1 } ∧
    (∀ tid, ¬ tid = se.templateId →
      getEmailTemplate (sendScheduledEmail send fmtDate now s se) tid
        = getEmailTemplate s tid) ∧
    (sendScheduledEmail send fmtDate now s se).clients = s.clients ∧
    (sendScheduledEmail send fmtDate now s se).currentLogId = s.currentLogId + 1 := by
  have htid : template.id = se.templateId := by
    have := List.find?_some ht
    simpa using this
  have hq : (fun t : EmailTemplate => decide (t.id = se.templateId))
      = (fun t : EmailTemplate => decide (t.id = template.id)) := by
    funext t
    rw [htid]
  unfold sendScheduledEmail
  rw [hc, ht]
  dsimp only
  rw [if_neg (not_or.mpr ⟨hsubj, hcont⟩), hsend]
  dsimp only
  refine ⟨?_, rfl, ?_, ?_, rfl, rfl⟩
  · exact find?_updateFirst_self _ _ _ _ (fun x hx => hx) hse
  · have ht' : s.emailTemplates.find?
        (fun t => decide (t.id = se.templateId)) = some template := ht
    rw [hq] at ht'
    show (updateFirst (fun t => decide (t.id = template.id))
        (fun t => { t with usageCount := t.usageCount + 1 })
        s.emailTemplates).find? (fun t => decide (t.id = se.templateId))
      = some { template with usageCount := template.usageCount + 1 }
    rw [hq]
    exact find?_updateFirst_self _ _ _ _ (fun x hx => hx) ht'
  · intro tid htid2
    show (updateFirst (fun t => decide (t.id = template.id))
        (fun t => { t with usageCount := t.usageCount + 1 })
        s.emailTemplates).find? (fun t => decide (t.id = tid))
      = s.emailTemplates.find? (fun t => decide (t.id = tid))
    exact find?_updateFirst_disjoint _ _ _ _
      (fun x hx => by
        simp only [decide_eq_true_eq] at hx
        simp only [decide_eq_false_iff_not]
        omega)
      (fun x => rfl)

/-! ## Concrete fixtures used by witnesses and counterexamples -/

def clientEx : Client :=
  { id := 1, name := "Ada", email := "ada@example.com", company := some "Acme",
    phone := none, language := "en", customFields := [], lastInteraction := none,
    createdAt := 0 }

def tmplEx : EmailTemplate :=
  { id := 1, name := "Welcome", subject := [("en", "Hello")],
    content := [("en", "Hi")], variableNames := [], primaryLanguage := "en",
    supportedLanguages := ["en"], usageCount := 0, createdAt := 0 }

def seEx : ScheduledEmail :=
  { id := 1, clientId := 1, templateId := 1, scheduledFor := 100,
    status := .pending, language := "en", personalizedSubject := none,
    personalizedContent := none, sentAt := none, errorMessage := none,
    createdAt := 0 }

def storeEx : Store :=
  { clients := [clientEx], emailTemplates := [tmplEx], scheduledEmails := [seEx],
    emailLogs := [], currentScheduledEmailId := 2, currentLogId := 1 }

/-- A transport that accepts everything. -/
def okTransport : Transport := fun _ => .ok true

/-- A fixed date formatter standing in for `toLocaleDateString`. -/
def fmtDateEx : Int → String := fun _ => "1/1/2025"

/-! ## The claims -/

/-- Claim C10: every record returned by `createScheduledEmail` starts with
status `pending` and null `sentAt`, `personalizedSubject`,
`personalizedContent` and `errorMessage`, regardless of what the insert
input supplies (a caller-provided `status` or `errorMessage` is
overwritten), and the record is appended to the store. -/
theorem claim10_created_pending (s : Store) (now : Int) (i : InsertScheduledEmail) :
    ((createScheduledEmail s now i).2).status = .pending ∧
    ((createScheduledEmail s now i).2).sentAt = none ∧
    ((createScheduledEmail s now i).2).personalizedSubject = none ∧
    ((createScheduledEmail s now i).2).personalizedContent = none ∧
    ((createScheduledEmail s now i).2).errorMessage = none ∧
    (createScheduledEmail s now i).1.scheduledEmails
      = s.scheduledEmails ++ [(createScheduledEmail s now i).2] :=
  ⟨rfl, rfl, rfl, rfl, rfl, rfl⟩

/-- Claim C2: dispatching a pending record whose client or template does not
resolve marks it `failed` with error message exactly
`"Client or template not found"`, creates no log entry, changes no template
(in particular no usage counter), and performs no transport attempt (the
result does not depend on the transport at all). -/
theorem claim2_not_found (send send2 : Transport) (fmtDate fmtDate2 : Int → String)
    (now : Int) (s : Store) (se : ScheduledEmail)
    (_hpend : se.status = .pending)
    (hse : getScheduledEmail s se.id = some se)
    (h : getClient s se.clientId = none ∨ getEmailTemplate s se.templateId = none) :
    getScheduledEmail (sendScheduledEmail send fmtDate now s se) se.id
      = some { se with
          status := .failed,
          errorMessage := some "Client or template not found" } ∧
    (sendScheduledEmail send fmtDate now s se).emailLogs = s.emailLogs ∧
    (sendScheduledEmail send fmtDate now s se).emailTemplates = s.emailTemplates ∧
    sendScheduledEmail send2 fmtDate2 now s se
      = sendScheduledEmail send fmtDate now s se := by
  have hred : ∀ (sd : Transport) (fd : Int → String),
      sendScheduledEmail sd fd now s se
        = updateScheduledEmail s se.id (failPatch "Client or template not found") := by
    intro sd fd
    unfold sendScheduledEmail
    cases hgc : getClient s se.clientId with
    | none =>
      cases hgt : getEmailTemplate s se.templateId with
      | none => rfl
      | some t => rfl
    | some c =>
      cases hgt : getEmailTemplate s se.templateId with
      | none => rfl
      | some t =>
        exfalso
        rcases h with h | h
        · rw [hgc] at h
          exact Option.noConfusion h
        · rw [hgt] at h
          exact Option.noConfusion h
  rw [hred send fmtDate, hred send2 fmtDate2]
  refine ⟨?_, rfl, rfl, rfl⟩
  exact find?_updateFirst_self _ _ _ _ (fun x hx => hx) hse

def storeC2 : Store := { storeEx with clients := [] }

theorem claim2_not_found_witness :
    getScheduledEmail (sendScheduledEmail okTransport fmtDateEx 500 storeC2 seEx) 1
      = some { seEx with
          status := .failed,
          errorMessage := some "Client or template not found" } ∧
    (sendScheduledEmail okTransport fmtDateEx 500 storeC2 seEx).emailLogs = [] :=
  ⟨(claim2_not_found okTransport okTransport fmtDateEx fmtDateEx 500 storeC2 seEx
      (by decide) (by decide) (Or.inl (by decide))).1,
    (claim2_not_found okTransport okTransport fmtDateEx fmtDateEx 500 storeC2 seEx
      (by decide) (by decide) (Or.inl (by decide))).2.1⟩

/-- Claim C1: dispatching a pending record whose client and template both
resolve, whose resolved subject and content are non-empty, and for which
the transport returns `true`, (i) sets the record to `sent` with the sent
timestamp and the personalized subject/content stored, (ii) appends exactly
one EmailLog entry with status `"sent"` referencing that client, template
and scheduled email, and (iii) increments exactly that template's usage
counter by one, leaving every other template untouched.  (The nonzero-id
hypotheses reflect the `MemStorage` id allocation, which starts at 1; a
zero id would be nulled by the `|| null` coercions of `createEmailLog`.) -/
theorem claim1_success_path (send : Transport) (fmtDate : Int → String)
    (now : Int) (s : Store) (se : ScheduledEmail) (client : Client)
    (template : EmailTemplate)
    (_hpend : se.status = .pending)
    (hc : getClient s se.clientId = some client)
    (ht : getEmailTemplate s se.templateId = some template)
    (hse : getScheduledEmail s se.id = some se)
    (hsubj : resolveField template.subject (effectiveLanguage se client)
      template.primaryLanguage ≠ "")
    (hcont : resolveField template.content (effectiveLanguage se client)
      template.primaryLanguage ≠ "")
    (htid0 : ¬ template.id = 0) (hsid0 : ¬ se.id = 0)
    (hsend : send (dispatchPayload fmtDate client template se) = .ok true) :
    getScheduledEmail (sendScheduledEmail send fmtDate now s se) se.id
      = some { se with
          status := .sent,
          sentAt := some now,
          personalizedSubject := some (renderedSubject fmtDate client template se),
          personalizedContent := some (renderedContent fmtDate client template se) } ∧
    (sendScheduledEmail send fmtDate now s se).emailLogs
      = s.emailLogs ++
        [{ id := s.currentLogId,
           clientId := client.id,
           templateId := some template.id,
           scheduledEmailId := some se.id,
           subject := renderedSubject fmtDate client template se,
           status := "sent",
           language := effectiveLanguage se client,
           sentAt := now,
           deliveredAt := none,
           openedAt := none,
           errorMessage := none }] ∧
    getEmailTemplate (sendScheduledEmail send fmtDate now s se) se.templateId
      = some { template with usageCount := template.usageCount + 1 } ∧
    (∀ tid, ¬ tid = se.templateId →
      getEmailTemplate (sendScheduledEmail send fmtDate now s se) tid
        = getEmailTemplate s tid) := by
  obtain ⟨h1, h2, h3, h4, _, _⟩ :=
    sendScheduledEmail_success_spec send fmtDate now s se client template
      hc ht hse hsubj hcont hsend
  refine ⟨h1, ?_, h3, h4⟩
  rw [h2]
  simp [jsOrNullNat, htid0, hsid0]

theorem claim1_success_path_witness :
    getScheduledEmail (sendScheduledEmail okTransport fmtDateEx 500 storeEx seEx) 1
      = some { seEx with
          status := .sent,
          sentAt := some 500,
          personalizedSubject := some (renderedSubject fmtDateEx clientEx tmplEx seEx),
          personalizedContent := some (renderedContent fmtDateEx clientEx tmplEx seEx) } ∧
    (sendScheduledEmail okTransport fmtDateEx 500 storeEx seEx).emailLogs
      = [{ id := 1,
           clientId := 1,
           templateId := some 1,
           scheduledEmailId := some 1,
           subject := renderedSubject fmtDateEx clientEx tmplEx seEx,
           status := "sent",
           language := "en",
           sentAt := 500,
           deliveredAt := none,
           openedAt := none,
           errorMessage := none }] ∧
    getEmailTemplate (sendScheduledEmail okTransport fmtDateEx 500 storeEx seEx) 1
      = some { tmplEx with usageCount := 1 } := by
  obtain ⟨h1, h2, h3, h4⟩ :=
    claim1_success_path okTransport fmtDateEx 500 storeEx seEx clientEx tmplEx
      (by decide) (by decide) (by decide) (by decide) (by decide) (by decide)
      (by decide) (by decide) rfl
  exact ⟨h1, h2, h3⟩

/-- The per-field resolution the code performs, written out: take the
requested language's entry when it is present and non-empty, otherwise the
primary language's entry (empty when that is missing too). -/
theorem resolveField_eq (m : List (String × String)) (lang primary : String) :
    resolveField m lang primary
      = if (m.lookup lang).getD "" ≠ "" then (m.lookup lang).getD ""
        else (m.lookup primary).getD "" := by
  unfold resolveField jsOrS
  cases m.lookup lang with
  | none =>
    cases m.lookup primary with
    | none => simp
    | some sp => by_cases hp : sp = "" <;> simp [hp]
  | some sl =>
    cases m.lookup primary with
    | none => by_cases hl : sl = "" <;> simp [hl]
    | some sp =>
      by_cases hl : sl = "" <;> by_cases hp : sp = "" <;> simp [hl, hp]

/-- Modelled from the spec: the joint language-resolution rule claim C3
states (spec §4.2): use the requested language only when the template has a
non-empty subject AND a non-empty content for it; otherwise take BOTH
fields from the primary language; if the primary language misses either
field, no content is available (`none`). -/
def specResolveBoth (t : EmailTemplate) (lang : String) :
    Option (String × String) :=
  let sl := (t.subject.lookup lang).getD ""
  let cl := (t.content.lookup lang).getD ""
  if sl ≠ "" ∧ cl ≠ "" then some (sl, cl)
  else
    let sp := (t.subject.lookup t.primaryLanguage).getD ""
    let cp := (t.content.lookup t.primaryLanguage).getD ""
    if sp ≠ "" ∧ cp ≠ "" then some (sp, cp) else none

/-- A template with a French subject but no French content, and an empty
English subject: the spec's joint rule finds no usable content, the code
mixes the French subject with the English body and dispatches. -/
def tmplC3 : EmailTemplate :=
  { id := 1, name := "Mixed", subject := [("fr", "Sujet"), ("en", "")],
    content := [("en", "Body")], variableNames := [], primaryLanguage := "en",
    supportedLanguages := ["en", "fr"], usageCount := 0, createdAt := 0 }

def seC3 : ScheduledEmail := { seEx with language := "fr" }

def storeC3 : Store :=
  { storeEx with emailTemplates := [tmplC3], scheduledEmails := [seC3] }

/-- Claim C3 counterexample: with `tmplC3` requested in `fr`, the claim
says both fields fall back jointly (and here the fallback fails, so the
record must become `failed` with no transport call) — but the code resolves
the two fields independently, takes the subject from `fr` and the content
from `en`, dispatches, and the record ends up `sent` with a log entry. -/
theorem claim3_counterexample :
    specResolveBoth tmplC3 "fr" = none ∧
    resolveField tmplC3.subject "fr" tmplC3.primaryLanguage = "Sujet" ∧
    resolveField tmplC3.content "fr" tmplC3.primaryLanguage = "Body" ∧
    (getScheduledEmail (sendScheduledEmail okTransport fmtDateEx 500 storeC3 seC3) 1).map
        ScheduledEmail.status = some EmailStatus.sent ∧
    (sendScheduledEmail okTransport fmtDateEx 500 storeC3 seC3).emailLogs.length = 1 := by
  decide

/-- Claim C3 (amended): subject and content are resolved independently per
field — each is taken from the requested language when non-empty there, and
otherwise from the primary language (empty when that is missing too); when
either resolved field is empty, the record is marked `failed` with error
message `"Template content not available for language: <lang>"`, no log
entry is created, no template changes, and no transport call is made. -/
theorem claim3_amended (send : Transport) (fmtDate : Int → String) (now : Int)
    (s : Store) (se : ScheduledEmail) (client : Client) (template : EmailTemplate)
    (hc : getClient s se.clientId = some client)
    (ht : getEmailTemplate s se.templateId = some template)
    (hse : getScheduledEmail s se.id = some se) :
    (resolveField template.subject (effectiveLanguage se client) template.primaryLanguage
      = if (template.subject.lookup (effectiveLanguage se client)).getD "" ≠ ""
        then (template.subject.lookup (effectiveLanguage se client)).getD ""
        else (template.subject.lookup template.primaryLanguage).getD "") ∧
    (resolveField template.content (effectiveLanguage se client) template.primaryLanguage
      = if (template.content.lookup (effectiveLanguage se client)).getD "" ≠ ""
        then (template.content.lookup (effectiveLanguage se client)).getD ""
        else (template.content.lookup template.primaryLanguage).getD "") ∧
    ((resolveField template.subject (effectiveLanguage se client)
          template.primaryLanguage = "" ∨
      resolveField template.content (effectiveLanguage se client)
          template.primaryLanguage = "") →
      getScheduledEmail (sendScheduledEmail send fmtDate now s se) se.id
        = some { se with
            status := .failed,
            errorMessage := some ("Template content not available for language: "
              ++ effectiveLanguage se client) } ∧
      (sendScheduledEmail send fmtDate now s se).emailLogs = s.emailLogs ∧
      (sendScheduledEmail send fmtDate now s se).emailTemplates = s.emailTemplates ∧
      ∀ (send2 : Transport) (fmtDate2 : Int → String),
        sendScheduledEmail send2 fmtDate2 now s se
          = sendScheduledEmail send fmtDate now s se) := by
  refine ⟨resolveField_eq _ _ _, resolveField_eq _ _ _, fun hor => ?_⟩
  have hred : ∀ (sd : Transport) (fd : Int → String),
      sendScheduledEmail sd fd now s se
        = updateScheduledEmail s se.id
            (failPatch ("Template content not available for language: "
              ++ effectiveLanguage se client)) := by
    intro sd fd
    unfold sendScheduledEmail
    rw [hc, ht]
    dsimp only
    rw [if_pos hor]
  rw [hred send fmtDate]
  refine ⟨?_, rfl, rfl, fun send2 fmtDate2 => hred send2 fmtDate2⟩
  exact find?_updateFirst_self _ _ _ _ (fun x hx => hx) hse

/-- A template whose subject is empty in both the requested and the primary
language: dispatch must fail without transport. -/
def tmplC3w : EmailTemplate := { tmplC3 with subject := [("en", "")] }

def storeC3w : Store := { storeC3 with emailTemplates := [tmplC3w] }

theorem claim3_amended_witness :
    getScheduledEmail (sendScheduledEmail okTransport fmtDateEx 500 storeC3w seC3) 1
      = some { seC3 with
          status := .failed,
          errorMessage := some "Template content not available for language: fr" } ∧
    (sendScheduledEmail okTransport fmtDateEx 500 storeC3w seC3).emailLogs = [] := by
  obtain ⟨h1, h2, h3, h4⟩ :=
    (claim3_amended okTransport fmtDateEx 500 storeC3w seC3 clientEx tmplC3w
      (by decide) (by decide) (by decide)).2.2 (Or.inl (by decide))
  exact ⟨h1, h2⟩

/-- Modelled from the spec: the clamping one-calendar-month addition claim
C4 describes — day-of-month preserved where valid, otherwise clamped to the
last valid day of the resulting month. -/
def specClampAddMonth (t : CivilTime) : CivilTime :=
  let p := nextMonth t.year t.month
  ⟨p.1, p.2, min t.day (daysInMonth p.1 p.2), t.msOfDay⟩

/-- Claim C4 counterexample: scheduling with delay `1month` on
Jan 31 2025 yields Mar 3 2025 (the JavaScript `setMonth` day overflow rolls
forward), not the clamped Feb 28 2025 the claim requires. -/
theorem claim4_counterexample :
    ((scheduleEmail storeEx ⟨2025, 1, 31, 0⟩ 1 1 .oneMonth none).2).scheduledFor
        = absMs ⟨2025, 3, 3, 0⟩ ∧
    absMs (specClampAddMonth ⟨2025, 1, 31, 0⟩) = absMs ⟨2025, 2, 28, 0⟩ ∧
    ¬ ((scheduleEmail storeEx ⟨2025, 1, 31, 0⟩ 1 1 .oneMonth none).2).scheduledFor
        = absMs (specClampAddMonth ⟨2025, 1, 31, 0⟩) := by
  decide

/-- Claim C4 (amended): for every valid `now`, delay `1month` advances the
month index by one and keeps the day-of-month when it exists in the
resulting month; when it does not, the due date overflows past the end of
the resulting month into the following month (Jan 31 + 1 month → Mar 2/3)
— it is never clamped. -/
theorem claim4_amended (s : Store) (now : CivilTime) (cid tid : Nat)
    (lang : Option String) (h : ValidTime now) :
    (now.day ≤ daysInMonth (nextMonth now.year now.month).1
        (nextMonth now.year now.month).2 →
      ((scheduleEmail s now cid tid .oneMonth lang).2).scheduledFor
        = absMs ⟨(nextMonth now.year now.month).1,
            (nextMonth now.year now.month).2, now.day, now.msOfDay⟩) ∧
    (daysInMonth (nextMonth now.year now.month).1
        (nextMonth now.year now.month).2 < now.day →
      ((scheduleEmail s now cid tid .oneMonth lang).2).scheduledFor
        = absMs ⟨(nextMonth (nextMonth now.year now.month).1
              (nextMonth now.year now.month).2).1,
            (nextMonth (nextMonth now.year now.month).1
              (nextMonth now.year now.month).2).2,
            now.day - daysInMonth (nextMonth now.year now.month).1
              (nextMonth now.year now.month).2,
            now.msOfDay⟩ ∧
      absMs ⟨(nextMonth now.year now.month).1, (nextMonth now.year now.month).2,
          daysInMonth (nextMonth now.year now.month).1
            (nextMonth now.year now.month).2,
          now.msOfDay⟩
        < ((scheduleEmail s now cid tid .oneMonth lang).2).scheduledFor) := by
  obtain ⟨h1, h2, h3, h4, h5⟩ := h
  have hsf : ((scheduleEmail s now cid tid .oneMonth lang).2).scheduledFor
      = absMs (addMonthJS now) := rfl
  have hb := nextMonth_bounds now.year now.month h1 h2
  constructor
  · intro hle
    rw [hsf]
    unfold addMonthJS normDay
    dsimp only
    rw [normDayAux_of_le _ _ _ _ hle]
  · intro hlt
    have h31 := daysInMonth_le now.year now.month
    have h28 := daysInMonth_ge (nextMonth now.year now.month).1
      (nextMonth now.year now.month).2
    have h28b := daysInMonth_ge
      (nextMonth (nextMonth now.year now.month).1 (nextMonth now.year now.month).2).1
      (nextMonth (nextMonth now.year now.month).1 (nextMonth now.year now.month).2).2
    obtain ⟨fuel, hfuel⟩ : ∃ f, now.day = f + 1 := ⟨now.day - 1, by omega⟩
    have hstep : addMonthJS now
        = ⟨(nextMonth (nextMonth now.year now.month).1
              (nextMonth now.year now.month).2).1,
           (nextMonth (nextMonth now.year now.month).1
              (nextMonth now.year now.month).2).2,
           now.day - daysInMonth (nextMonth now.year now.month).1
              (nextMonth now.year now.month).2,
           now.msOfDay⟩ := by
      unfold addMonthJS normDay
      dsimp only
      rw [hfuel]
      simp only [normDayAux]
      rw [if_neg (by omega)]
      rw [normDayAux_of_le _ _ _ _ (by omega)]
    refine ⟨by rw [hsf, hstep], ?_⟩
    rw [hsf, hstep]
    unfold absMs
    dsimp only
    rw [daysFromCivil_day
        (nextMonth (nextMonth now.year now.month).1 (nextMonth now.year now.month).2).1
        (nextMonth (nextMonth now.year now.month).1 (nextMonth now.year now.month).2).2
        (now.day - daysInMonth (nextMonth now.year now.month).1
          (nextMonth now.year now.month).2),
      daysFromCivil_nextMonth (nextMonth now.year now.month).1
        (nextMonth now.year now.month).2 hb.1 hb.2,
      daysFromCivil_day (nextMonth now.year now.month).1
        (nextMonth now.year now.month).2
        (daysInMonth (nextMonth now.year now.month).1 (nextMonth now.year now.month).2)]
    omega

theorem claim4_amended_witness :
    ((scheduleEmail storeEx ⟨2025, 1, 31, 0⟩ 1 1 .oneMonth none).2).scheduledFor
      = absMs ⟨2025, 3, 3, 0⟩ ∧
    ((scheduleEmail storeEx ⟨2025, 4, 10, 0⟩ 1 1 .oneMonth none).2).scheduledFor
      = absMs ⟨2025, 5, 10, 0⟩ := by
  constructor
  · exact ((claim4_amended storeEx ⟨2025, 1, 31, 0⟩ 1 1 none (by decide)).2
      (by decide)).1
  · exact (claim4_amended storeEx ⟨2025, 4, 10, 0⟩ 1 1 none (by decide)).1
      (by decide)

/-- Claim C7 counterexample: for delay `1month` the due time is not
monotone in `now` — Jan 31 2025 (due Mar 3) precedes Feb 1 2025 (due
Mar 1), but its due time is strictly later. -/
theorem claim7_counterexample :
    absMs ⟨2025, 1, 31, 0⟩ ≤ absMs ⟨2025, 2, 1, 0⟩ ∧
    ((scheduleEmail storeEx ⟨2025, 2, 1, 0⟩ 1 1 .oneMonth none).2).scheduledFor
      < ((scheduleEmail storeEx ⟨2025, 1, 31, 0⟩ 1 1 .oneMonth none).2).scheduledFor := by
  decide

/-- Claim C7 (amended): for every delay symbol and valid `now` the due
timestamp is strictly greater than `now`; for `immediate`, `1day` and
`1week` it is moreover monotone in `now` (for `1month` it is not — see the
counterexample). -/
theorem claim7_amended (s : Store) (cid tid : Nat) (lang : Option String)
    (delay : Delay) (now now1 now2 : CivilTime)
    (h : ValidTime now) (h1 : ValidTime now1) (h2 : ValidTime now2) :
    absMs now < ((scheduleEmail s now cid tid delay lang).2).scheduledFor ∧
    (¬ delay = .oneMonth → absMs now1 ≤ absMs now2 →
      ((scheduleEmail s now1 cid tid delay lang).2).scheduledFor
        ≤ ((scheduleEmail s now2 cid tid delay lang).2).scheduledFor) := by
  have hsf : ∀ (n : CivilTime),
      ((scheduleEmail s n cid tid delay lang).2).scheduledFor
        = absMs (resolveDueTime delay n) := fun n => rfl
  cases delay with
  | immediate =>
    rw [hsf now, hsf now1, hsf now2]
    unfold resolveDueTime
    rw [absMs_addMinuteJS now h, absMs_addMinuteJS now1 h1,
      absMs_addMinuteJS now2 h2]
    exact ⟨by omega, fun _ hle => by omega⟩
  | oneDay =>
    rw [hsf now, hsf now1, hsf now2]
    unfold resolveDueTime
    rw [absMs_addDaysJS now 1 h, absMs_addDaysJS now1 1 h1,
      absMs_addDaysJS now2 1 h2]
    exact ⟨by omega, fun _ hle => by omega⟩
  | oneWeek =>
    rw [hsf now, hsf now1, hsf now2]
    unfold resolveDueTime
    rw [absMs_addDaysJS now 7 h, absMs_addDaysJS now1 7 h1,
      absMs_addDaysJS now2 7 h2]
    exact ⟨by omega, fun _ hle => by omega⟩
  | oneMonth =>
    refine ⟨?_, fun hd => (hd rfl).elim⟩
    rw [hsf now]
    unfold resolveDueTime
    rw [absMs_addMonthJS now h]
    have := daysInMonth_ge now.year now.month
    omega

theorem claim7_amended_witness :
    absMs ⟨2025, 5, 10, 0⟩
      < ((scheduleEmail storeEx ⟨2025, 5, 10, 0⟩ 1 1 .oneDay none).2).scheduledFor ∧
    ((scheduleEmail storeEx ⟨2025, 5, 10, 0⟩ 1 1 .oneDay none).2).scheduledFor
      ≤ ((scheduleEmail storeEx ⟨2025, 5, 11, 0⟩ 1 1 .oneDay none).2).scheduledFor := by
  have h := claim7_amended storeEx 1 1 none .oneDay ⟨2025, 5, 10, 0⟩
    ⟨2025, 5, 10, 0⟩ ⟨2025, 5, 11, 0⟩ (by decide) (by decide) (by decide)
  exact ⟨h.1, h.2 (by decide) (by decide)⟩

/-- Claim C8: for every store (whose scheduled-email list is in creation
order, i.e. ids strictly increasing — the `MemStorage` id-allocation
invariant) and every `now`, the due-set query returns exactly the records
that are `pending` and due at or before `now` — no terminal or future-due
record is included — sorted by ascending due timestamp with ties broken by
creation order (`dueOrder`). -/
theorem claim8_due_query (s : Store) (now : Int)
    (hord : s.scheduledEmails.Pairwise (fun a b => a.id < b.id)) :
    (∀ e, e ∈ getPendingScheduledEmails s now ↔
        e ∈ s.scheduledEmails ∧ e.status = .pending ∧ e.scheduledFor ≤ now) ∧
    (getPendingScheduledEmails s now).Pairwise dueOrder := by
  refine ⟨fun e => mem_getPendingScheduledEmails s now e, ?_⟩
  unfold getPendingScheduledEmails
  exact sortByDue_pairwise _ (List.Pairwise.sublist (List.filter_sublist _) hord)

/-- Two due pending records with the same due timestamp, one terminal
record and one future record, listed in creation order. -/
def seC8a : ScheduledEmail := { seEx with id := 1, scheduledFor := 10 }
def seC8b : ScheduledEmail := { seEx with id := 2, scheduledFor := 5 }
def seC8c : ScheduledEmail := { seEx with id := 3, scheduledFor := 10 }
def seC8d : ScheduledEmail := { seEx with id := 4, scheduledFor := 3, status := .sent }
def seC8e : ScheduledEmail := { seEx with id := 5, scheduledFor := 1000 }

def storeC8 : Store :=
  { storeEx with scheduledEmails := [seC8a, seC8b, seC8c, seC8d, seC8e] }

theorem claim8_due_query_witness :
    (seC8b ∈ getPendingScheduledEmails storeC8 100 ∧
      ¬ seC8d ∈ getPendingScheduledEmails storeC8 100 ∧
      ¬ seC8e ∈ getPendingScheduledEmails storeC8 100) ∧
    (getPendingScheduledEmails storeC8 100).Pairwise dueOrder := by
  have h := claim8_due_query storeC8 100 (by decide)
  refine ⟨⟨(h.1 seC8b).mpr (by decide), ?_, ?_⟩, h.2⟩
  · intro hmem
    have h2 := (h.1 seC8d).mp hmem
    revert h2
    decide
  · intro hmem
    have h2 := (h.1 seC8e).mp hmem
    revert h2
    decide

/-- Looking a key up in a record filtered by a key predicate the key
satisfies is the same as looking it up in the unfiltered record. -/
theorem lookup_filter_key {β : Type} (l : List (String × β)) (p : String → Bool)
    (k : String) (hk : p k = true) :
    (l.filter (fun kv => p kv.1)).lookup k = l.lookup k := by
  induction l with
  | nil => rfl
  | cons a l ih =>
    obtain ⟨a1, a2⟩ := a
    by_cases hpa : p a1 = true
    · simp only [List.filter_cons, hpa, if_true]
      by_cases hke : (k == a1) = true
      · simp [List.lookup, hke]
      · simp only [List.lookup, Bool.not_eq_true] at hke ⊢
        rw [hke]
        exact ih
    · have hpa' : p a1 = false := by simpa using hpa
      simp only [List.filter_cons, hpa', Bool.false_eq_true, if_false]
      have hke : (k == a1) = false := by
        by_cases hkk : k = a1
        · rw [hkk] at hk
          exact absurd hk hpa
        · simpa using hkk
      simp only [List.lookup, hke]
      exact ih

theorem lookup_cons_self {β : Type} (k : String) (b : β) (l : List (String × β)) :
    List.lookup k ((k, b) :: l) = some b := by
  simp [List.lookup]

theorem lookup_cons_ne {β : Type} (k a1 : String) (b : β) (l : List (String × β))
    (h : (k == a1) = false) : List.lookup k ((a1, b) :: l) = List.lookup k l := by
  simp [List.lookup, h]

/-- Claim C9: the variable bag maps `client_name` to the client's name,
`company` to the client's company (empty string when absent) and
`last_interaction` to the formatted date (the literal `"N/A"` when absent),
and contains every key/value pair of the client's custom fields — a custom
field whose name collides with a built-in overrides the built-in's value. -/
theorem claim9_variable_bag (fmtDate : Int → String) (c : Client) (k v : String) :
    (c.customFields.lookup k = some v →
      (buildVariables fmtDate c).lookup k = some v) ∧
    (c.customFields.lookup k = none →
      (buildVariables fmtDate c).lookup k
        = if k = "client_name" then some c.name
          else if k = "company" then some (c.company.getD "")
          else if k = "last_interaction" then
            some (match c.lastInteraction with
                  | some ts => fmtDate ts
                  | none => "N/A")
          else none) := by
  have hbag : buildVariables fmtDate c
      = ("client_name", (c.customFields.lookup "client_name").getD c.name)
        :: ("company", (c.customFields.lookup "company").getD (c.company.getD ""))
        :: ("last_interaction", (c.customFields.lookup "last_interaction").getD
              (match c.lastInteraction with
               | some ts => fmtDate ts
               | none => "N/A"))
        :: c.customFields.filter
            (fun kv => ((builtinVariables fmtDate c).lookup kv.1).isNone) := rfl
  rw [hbag]
  by_cases h1 : k = "client_name"
  · subst h1
    rw [lookup_cons_self]
    constructor
    · intro hv
      rw [hv]
      rfl
    · intro hv
      rw [hv]
      rfl
  · have hb1 : (k == "client_name") = false := by simpa using h1
    rw [lookup_cons_ne _ _ _ _ hb1]
    by_cases h2 : k = "company"
    · subst h2
      rw [lookup_cons_self]
      constructor
      · intro hv
        rw [hv]
        rfl
      · intro hv
        rw [hv]
        rfl
    · have hb2 : (k == "company") = false := by simpa using h2
      rw [lookup_cons_ne _ _ _ _ hb2]
      by_cases h3 : k = "last_interaction"
      · subst h3
        rw [lookup_cons_self]
        constructor
        · intro hv
          rw [hv]
          rfl
        · intro hv
          rw [hv]
          rfl
      · have hb3 : (k == "last_interaction") = false := by simpa using h3
        rw [lookup_cons_ne _ _ _ _ hb3]
        have hk : ((builtinVariables fmtDate c).lookup k).isNone = true := by
          unfold builtinVariables
          rw [lookup_cons_ne _ _ _ _ hb1, lookup_cons_ne _ _ _ _ hb2,
            lookup_cons_ne _ _ _ _ hb3]
          rfl
        rw [lookup_filter_key c.customFields
          (fun x => ((builtinVariables fmtDate c).lookup x).isNone) k hk]
        constructor
        · intro hv
          exact hv
        · intro hv
          rw [hv, if_neg h1, if_neg h2, if_neg h3]

def clientC9 : Client :=
  { clientEx with
    customFields := [("company", "Umbrella"), ("city", "Paris")],
    lastInteraction := some 42 }

theorem claim9_variable_bag_witness :
    (buildVariables fmtDateEx clientC9).lookup "company" = some "Umbrella" ∧
    (buildVariables fmtDateEx clientC9).lookup "city" = some "Paris" ∧
    (buildVariables fmtDateEx clientC9).lookup "client_name" = some "Ada" ∧
    (buildVariables fmtDateEx clientC9).lookup "last_interaction"
      = some "1/1/2025" := by
  refine ⟨?_, ?_, ?_, ?_⟩
  · exact (claim9_variable_bag fmtDateEx clientC9 "company" "Umbrella").1 (by decide)
  · exact (claim9_variable_bag fmtDateEx clientC9 "city" "Paris").1 (by decide)
  · have h := (claim9_variable_bag fmtDateEx clientC9 "client_name" "").2 (by decide)
    rw [h]
    decide
  · have h := (claim9_variable_bag fmtDateEx clientC9 "last_interaction" "").2 (by decide)
    rw [h]
    decide

/-! ## Behaviour of a whole tick -/

theorem foldl_send_find_ne (send : Transport) (fmtDate : Int → String)
    (now : Int) (l : List ScheduledEmail) :
    ∀ (st : Store) (k : Nat), (∀ se ∈ l, ¬ k = se.id) →
      getScheduledEmail
          (l.foldl (fun st se => sendScheduledEmail send fmtDate now st se) st) k
        = getScheduledEmail st k := by
  induction l with
  | nil =>
    intro st k _
    rfl
  | cons a l ih =>
    intro st k h
    rw [List.foldl_cons, ih _ _ (fun se hse => h se (by simp [hse])),
      sendScheduledEmail_find_ne _ _ _ _ _ _ (h a (by simp))]

theorem foldl_send_clients (send : Transport) (fmtDate : Int → String)
    (now : Int) (l : List ScheduledEmail) :
    ∀ (st : Store),
      (l.foldl (fun st se => sendScheduledEmail send fmtDate now st se) st).clients
        = st.clients := by
  induction l with
  | nil =>
    intro st
    rfl
  | cons a l ih =>
    intro st
    rw [List.foldl_cons, ih _, sendScheduledEmail_clients]

theorem foldl_send_templateView (send : Transport) (fmtDate : Int → String)
    (now : Int) (l : List ScheduledEmail) :
    ∀ (st : Store) (k : Nat),
      (((l.foldl (fun st se => sendScheduledEmail send fmtDate now st se)
            st).emailTemplates.find? (fun t => decide (t.id = k))).map templateView)
        = ((st.emailTemplates.find? (fun t => decide (t.id = k))).map templateView) := by
  induction l with
  | nil =>
    intro st k
    rfl
  | cons a l ih =>
    intro st k
    rw [List.foldl_cons, ih _ _, sendScheduledEmail_templateView]

/-- A record already in a terminal state, with its client and template
still resolvable: `sendScheduledEmail` has no status guard, so calling it
directly re-dispatches. -/
def seC5 : ScheduledEmail := { seEx with status := .sent }

def storeC5 : Store := { storeEx with scheduledEmails := [seC5] }

/-- Claim C5 counterexample: calling `sendScheduledEmail` directly on an
already-`sent` record is NOT a no-op — it performs a second transport send,
appends a second log entry and increments the usage counter again. -/
theorem claim5_counterexample :
    seC5.status = .sent ∧
    (sendScheduledEmail okTransport fmtDateEx 500 storeC5 seC5).emailLogs.length
        = storeC5.emailLogs.length + 1 ∧
    (getEmailTemplate (sendScheduledEmail okTransport fmtDateEx 500 storeC5 seC5) 1).map
        EmailTemplate.usageCount = some 1 ∧
    (getEmailTemplate storeC5 1).map EmailTemplate.usageCount = some 0 := by
  decide

/-- Claim C5 (amended): `sendScheduledEmail` itself has no status guard
(reprocessing a terminal record re-dispatches it — see the counterexample);
what holds is that a processing tick never reprocesses a terminal record,
because the due-set query only returns `pending` records: under the `Map`
key invariant (pairwise-distinct ids), a record in a terminal state is left
completely unchanged by `processPendingEmails`. -/
theorem claim5_amended (send : Transport) (fmtDate : Int → String) (now : Int)
    (s : Store) (e : ScheduledEmail)
    (hnd : s.scheduledEmails.Pairwise (fun a b => ¬ a.id = b.id))
    (he : e ∈ s.scheduledEmails) (hterm : ¬ e.status = .pending) :
    getScheduledEmail (processPendingEmails send fmtDate now s) e.id = some e ∧
    getScheduledEmail s e.id = some e := by
  have hfind : getScheduledEmail s e.id = some e :=
    find?_eq_of_mem_of_pairwise_ne ScheduledEmail.id s.scheduledEmails e hnd he
  refine ⟨?_, hfind⟩
  unfold processPendingEmails
  rw [foldl_send_find_ne send fmtDate now _ s e.id ?hne]
  · exact hfind
  case hne =>
    intro se hse
    have hmem := (mem_getPendingScheduledEmails s now se).mp hse
    intro heq
    have hne : e ≠ se := by
      intro hee
      rw [← hee] at hmem
      exact hterm hmem.2.1
    have hsymm : Symmetric (fun a b : ScheduledEmail => ¬ a.id = b.id) :=
      fun a b hab hba => hab hba.symm
    exact List.Pairwise.forall hsymm hnd he hmem.1 hne heq

theorem claim5_amended_witness :
    getScheduledEmail (processPendingEmails okTransport fmtDateEx 500 storeC5) 1
      = some seC5 := by
  have h := claim5_amended okTransport fmtDateEx 500 storeC5 seC5
    (by decide) (by decide) (by decide)
  exact h.1

/-- Claim C6: failures while dispatching one record never escape to the
caller, and never block its siblings.  For a record whose client and
template resolve and whose resolved fields are non-empty (so dispatch
reaches the transport): (i) a transport returning `false` is absorbed into
the record — status `failed`, error message exactly
`"Failed to send email via SendGrid"`, no log entry, no template change;
(ii) a transport that throws `e` is absorbed the same way with the thrown
error's message (`"Unknown error"` for a non-`Error` throw); and
(iii) batch isolation: under the `Map` key invariant, if the record is in
the fetched due set and its own transport call succeeds, it ends the tick
in state `sent` with its rendered content stored, regardless of what
happens to every other record of the batch (including `NotFound` failures
of records processed before it).  `sendScheduledEmail` is a total function
of the store in this embedding, so no outcome propagates an error to
`processPendingEmails`. -/
theorem claim6_failure_absorption_and_isolation (send : Transport)
    (fmtDate : Int → String) (now : Int) (s : Store) (se2 : ScheduledEmail)
    (client : Client) (template : EmailTemplate)
    (hc : getClient s se2.clientId = some client)
    (ht : getEmailTemplate s se2.templateId = some template)
    (hse : getScheduledEmail s se2.id = some se2)
    (hsubj : resolveField template.subject (effectiveLanguage se2 client)
      template.primaryLanguage ≠ "")
    (hcont : resolveField template.content (effectiveLanguage se2 client)
      template.primaryLanguage ≠ "") :
    (send (dispatchPayload fmtDate client template se2) = .ok false →
      getScheduledEmail (sendScheduledEmail send fmtDate now s se2) se2.id
        = some { se2 with
            status := .failed,
            errorMessage := some "Failed to send email via SendGrid" } ∧
      (sendScheduledEmail send fmtDate now s se2).emailLogs = s.emailLogs ∧
      (sendScheduledEmail send fmtDate now s se2).emailTemplates
        = s.emailTemplates) ∧
    (∀ e, send (dispatchPayload fmtDate client template se2) = .error e →
      getScheduledEmail (sendScheduledEmail send fmtDate now s se2) se2.id
        = some { se2 with
            status := .failed,
            errorMessage := some (e.getD "Unknown error") } ∧
      (sendScheduledEmail send fmtDate now s se2).emailLogs = s.emailLogs ∧
      (sendScheduledEmail send fmtDate now s se2).emailTemplates
        = s.emailTemplates) ∧
    (s.scheduledEmails.Pairwise (fun a b => ¬ a.id = b.id) →
      se2 ∈ getPendingScheduledEmails s now →
      send (dispatchPayload fmtDate client template se2) = .ok true →
      getScheduledEmail (processPendingEmails send fmtDate now s) se2.id
        = some { se2 with
            status := .sent,
            sentAt := some now,
            personalizedSubject := some (renderedSubject fmtDate client template se2),
            personalizedContent :=
              some (renderedContent fmtDate client template se2) }) := by
  refine ⟨?_, ?_, ?_⟩
  · intro hsendF
    unfold sendScheduledEmail
    rw [hc, ht]
    dsimp only
    rw [if_neg (not_or.mpr ⟨hsubj, hcont⟩), hsendF]
    dsimp only
    refine ⟨?_, rfl, rfl⟩
    exact find?_updateFirst_self _ _ _ _ (fun x hx => hx) hse
  · intro e hsendE
    unfold sendScheduledEmail
    rw [hc, ht]
    dsimp only
    rw [if_neg (not_or.mpr ⟨hsubj, hcont⟩), hsendE]
    dsimp only
    refine ⟨?_, rfl, rfl⟩
    exact find?_updateFirst_self _ _ _ _ (fun x hx => hx) hse
  · intro hnd hmem hsend
    obtain ⟨l1, l2, hsplit⟩ := List.append_of_mem hmem
    have hndp : (getPendingScheduledEmails s now).Pairwise
        (fun a b => ¬ a.id = b.id) := by
      unfold getPendingScheduledEmails
      exact ((sortByDue_perm _).pairwise_iff (fun h heq => h heq.symm)).mpr
        (List.Pairwise.sublist (List.filter_sublist _) hnd)
    rw [hsplit] at hndp
    have hl1 : ∀ x ∈ l1, ¬ x.id = se2.id :=
      fun x hx => (List.pairwise_append.mp hndp).2.2 x hx se2 (by simp)
    have hl2 : ∀ x ∈ l2, ¬ se2.id = x.id :=
      fun x hx =>
        (List.pairwise_cons.mp (List.pairwise_append.mp hndp).2.1).1 x hx
    have hclients := foldl_send_clients send fmtDate now l1 s
    have hview := foldl_send_templateView send fmtDate now l1 s se2.templateId
    have hse1 : getScheduledEmail
        (List.foldl (fun st se => sendScheduledEmail send fmtDate now st se) s l1)
        se2.id = some se2 := by
      rw [foldl_send_find_ne send fmtDate now l1 s se2.id
        (fun x hx hh => hl1 x hx hh.symm)]
      exact hse
    have hc1 : getClient
        (List.foldl (fun st se => sendScheduledEmail send fmtDate now st se) s l1)
        se2.clientId = some client := by
      unfold getClient
      rw [hclients]
      exact hc
    rw [show getEmailTemplate s se2.templateId
        = s.emailTemplates.find? (fun t => decide (t.id = se2.templateId)) from rfl]
      at ht
    rw [ht] at hview
    obtain ⟨t1, ht1, htv⟩ : ∃ t1,
        (List.foldl (fun st se => sendScheduledEmail send fmtDate now st se) s
          l1).emailTemplates.find? (fun t => decide (t.id = se2.templateId))
            = some t1 ∧
        templateView t1 = templateView template := by
      cases hft : (List.foldl (fun st se => sendScheduledEmail send fmtDate now st se)
          s l1).emailTemplates.find? (fun t => decide (t.id = se2.templateId)) with
      | none =>
        rw [hft] at hview
        exact Option.noConfusion hview
      | some t1 =>
        rw [hft] at hview
        refine ⟨t1, rfl, ?_⟩
        injection hview
    obtain ⟨hid, hsub, hcon, hprim⟩ :
        t1.id = template.id ∧ t1.subject = template.subject ∧
        t1.content = template.content ∧
        t1.primaryLanguage = template.primaryLanguage := by
      simpa [templateView, Prod.ext_iff] using htv
    have hrs : renderedSubject fmtDate client t1 se2
        = renderedSubject fmtDate client template se2 := by
      unfold renderedSubject
      rw [hsub, hprim]
    have hrc : renderedContent fmtDate client t1 se2
        = renderedContent fmtDate client template se2 := by
      unfold renderedContent
      rw [hcon, hprim]
    have hdp : dispatchPayload fmtDate client t1 se2
        = dispatchPayload fmtDate client template se2 := by
      unfold dispatchPayload
      rw [hrs, hrc]
    have hsubj1 : resolveField t1.subject (effectiveLanguage se2 client)
        t1.primaryLanguage ≠ "" := by
      rw [hsub, hprim]
      exact hsubj
    have hcont1 : resolveField t1.content (effectiveLanguage se2 client)
        t1.primaryLanguage ≠ "" := by
      rw [hcon, hprim]
      exact hcont
    have hsend1 : send (dispatchPayload fmtDate client t1 se2) = .ok true := by
      rw [hdp]
      exact hsend
    have hsucc := sendScheduledEmail_success_spec send fmtDate now
      (List.foldl (fun st se => sendScheduledEmail send fmtDate now st se) s l1)
      se2 client t1 hc1 ht1 hse1 hsubj1 hcont1 hsend1
    unfold processPendingEmails
    rw [hsplit, List.foldl_append, List.foldl_cons,
      foldl_send_find_ne send fmtDate now l2 _ se2.id hl2]
    rw [hsucc.1, hrs, hrc]

/-- A transport that rejects everything (`sendEmail` returns `false`). -/
def failTransport : Transport := fun _ => .ok false

/-- A transport that always throws an `Error` with message `"boom"`. -/
def throwTransport : Transport := fun _ => .error (some "boom")

def seC6a : ScheduledEmail :=
  { seEx with id := 1, clientId := 99, scheduledFor := 50 }

def seC6b : ScheduledEmail := { seEx with id := 2, scheduledFor := 60 }

def storeC6 : Store := { storeEx with scheduledEmails := [seC6a, seC6b] }

theorem claim6_failure_absorption_and_isolation_witness :
    getScheduledEmail (sendScheduledEmail failTransport fmtDateEx 500 storeEx seEx) 1
      = some { seEx with
          status := .failed,
          errorMessage := some "Failed to send email via SendGrid" } ∧
    getScheduledEmail (sendScheduledEmail throwTransport fmtDateEx 500 storeEx seEx) 1
      = some { seEx with
          status := .failed,
          errorMessage := some "boom" } ∧
    getScheduledEmail (processPendingEmails okTransport fmtDateEx 500 storeC6) 2
      = some { seC6b with
          status := .sent,
          sentAt := some 500,
          personalizedSubject := some (renderedSubject fmtDateEx clientEx tmplEx seC6b),
          personalizedContent := some (renderedContent fmtDateEx clientEx tmplEx seC6b) } ∧
    (getScheduledEmail (processPendingEmails okTransport fmtDateEx 500 storeC6) 1).map
        ScheduledEmail.status = some EmailStatus.failed := by
  refine ⟨?_, ?_, ?_, ?_⟩
  · exact ((claim6_failure_absorption_and_isolation failTransport fmtDateEx 500
      storeEx seEx clientEx tmplEx (by decide) (by decide) (by decide) (by decide)
      (by decide)).1 rfl).1
  · exact ((claim6_failure_absorption_and_isolation throwTransport fmtDateEx 500
      storeEx seEx clientEx tmplEx (by decide) (by decide) (by decide) (by decide)
      (by decide)).2.1 (some "boom") rfl).1
  · exact (claim6_failure_absorption_and_isolation okTransport fmtDateEx 500
      storeC6 seC6b clientEx tmplEx (by decide) (by decide) (by decide) (by decide)
      (by decide)).2.2 (by decide) (by decide) rfl
  · decide
